import Mathlib

/-!
Verification of the EPUB packaging scripts of the `code2ebook` repository.

The development shallowly embeds the string- and list-manipulating core of
`src/mdToEpub.js` (first script in the file, the most evolved variant),
`src/unnamed/part_001` (second script in that file, called "variant B" below),
`src/markedZip.js`, and the `codeToMarkdown` helper of `src/index.js` /
`src/repoTomd.js`.  JavaScript strings are modeled as Lean `String`
(`List Char` underneath); the Node `path` helpers used by the scripts are
modeled for forward-slash paths (the only shape the scripts produce); the
filesystem and the network are modeled as explicit oracle functions; code
that can throw is modeled in `Except String`.
-/

namespace Code2Ebook

/-! ### Character and string helpers (models of JS / Node primitives) -/

/-- The backtick character (written via its code point, U+0060). -/
def backtickChar : Char := Char.ofNat 96

/-- The forward-slash path separator. -/
def slashChar : Char := '/'

/-- The dot character used by extension handling. -/
def dotChar : Char := '.'

/-- Model of JS `String.prototype.trim` whitespace (ASCII subset; the image
scripts only ever pass ASCII language tags). -/
def isSpaceChar (c : Char) : Bool :=
  c = ' ' ∨ c = '\t' ∨ c = '\n' ∨ c = '\r'

/-- Model of JS `language.trim()`. -/
def jsTrim (s : String) : String :=
  String.mk (((s.data.dropWhile isSpaceChar).reverse.dropWhile isSpaceChar).reverse)

/-- ASCII lower-casing of one character (model of `toLowerCase` for the
ASCII extensions handled by the scripts). -/
def lowerChar (c : Char) : Char :=
  if 'A' ≤ c ∧ c ≤ 'Z' then Char.ofNat (c.toNat + 32) else c

/-- Model of JS `String.prototype.toLowerCase` on ASCII strings. -/
def lowerStr (s : String) : String :=
  String.mk (s.data.map lowerChar)

/-- Whether `pat` is a prefix of `l` (Boolean, structurally recursive so the
kernel can evaluate it). -/
def listStartsWith : List Char → List Char → Bool
  | [], _ => true
  | _ :: _, [] => false
  | p :: ps, x :: xs => p = x && listStartsWith ps xs

/-- Model of JS `src.startsWith(pre)`. -/
def jsStartsWith (s pre : String) : Bool :=
  listStartsWith pre.data s.data

/-- Whether `pat` occurs as a contiguous sublist of `l`. -/
def hasSub (pat : List Char) : List Char → Bool
  | [] => listStartsWith pat []
  | l@(_ :: xs) => listStartsWith pat l || hasSub pat xs

/-- Replace the first occurrence of `pat` in the list by `rep`
(`none` when `pat` does not occur).  This is the semantics of JS
`String.prototype.replace` with a plain-string pattern, which the image
pass of `src/mdToEpub.js` uses on `htmlContent`. -/
def replaceFirstAux (pat rep : List Char) : List Char → Option (List Char)
  | [] => if listStartsWith pat [] then some (rep ++ List.drop pat.length []) else none
  | x :: xs =>
    if listStartsWith pat (x :: xs) then some (rep ++ List.drop pat.length (x :: xs))
    else
      match replaceFirstAux pat rep xs with
      | some r => some (x :: r)
      | none => none

/-- Model of JS `s.replace(pat, rep)` with a string pattern: first
occurrence only, the string unchanged when the pattern is absent. -/
def replaceFirstStr (s pat rep : String) : String :=
  match replaceFirstAux pat.data rep.data s.data with
  | some r => String.mk r
  | none => s

/-- Characters of a path after the last slash (model of Node
`path.basename` for paths without trailing slashes, the only paths the
scripts build). -/
def afterLastSlash : List Char → List Char
  | [] => []
  | c :: cs =>
    if cs.contains slashChar then afterLastSlash cs
    else if c = slashChar then cs else c :: cs

/-- Model of Node `path.basename` (forward-slash paths). -/
def jsBasename (p : String) : String :=
  String.mk (afterLastSlash p.data)

/-- Suffix of a character list starting at its last dot, if any. -/
def lastDotSuffix : List Char → Option (List Char)
  | [] => none
  | c :: cs =>
    match lastDotSuffix cs with
    | some r => some r
    | none => if c = dotChar then some (c :: cs) else none

/-- Model of Node `path.extname` for forward-slash paths: the basename
suffix from its last dot, where a dot at position 0 of the basename (hidden
file) and the basename `..` yield the empty extension. -/
def jsExtname (p : String) : String :=
  match afterLastSlash p.data with
  | [] => ""
  | c :: cs =>
    if c :: cs = [dotChar, dotChar] then ""
    else
      match lastDotSuffix cs with
      | some r => String.mk r
      | none => ""

/-- Model of Node `path.dirname` for forward-slash paths (the scripts only
call it on paths of the form `dir/name`). -/
def jsDirname (p : String) : String :=
  if p.data.contains slashChar then
    String.mk (p.data.take (p.data.length - (afterLastSlash p.data).length - 1))
  else "."

/-- Model of Node `path.basename(p, ext)` as used by `downloadImage`:
`ext` is always the actual `path.extname` of `p` there, so dropping that
many trailing characters of the basename is exact. -/
def jsBasenameDrop (p ext : String) : String :=
  String.mk ((afterLastSlash p.data).take ((afterLastSlash p.data).length - ext.data.length))

/-- Concatenation of a list of strings, the accumulation pattern of the
`forEach (... += ...)` loops of the generators. -/
def strConcat : List String → String
  | [] => ""
  | x :: xs => x ++ strConcat xs

/-- Strip a directory from the front of a path: model of Node
`path.relative(dir, p)` for the in-tree case `p = dir/rest` produced by the
image pass (other inputs are returned unchanged). -/
def stripDirPre (dir p : String) : String :=
  if listStartsWith (dir ++ "/").data p.data then
    String.mk (p.data.drop (dir ++ "/").data.length)
  else p

/-- One path segment step of Node `path.normalize` (posix): drop `.` and
empty segments, resolve `..` against the accumulator. -/
def normSegs : List String → List String → List String
  | [], acc => acc.reverse
  | "" :: rest, acc => normSegs rest acc
  | "." :: rest, acc => normSegs rest acc
  | ".." :: rest, acc =>
    match acc with
    | [] => normSegs rest [".."]
    | ".." :: _ => normSegs rest (".." :: acc)
    | _ :: t => normSegs rest t
  | s :: rest, acc => normSegs rest (s :: acc)

/-- Split a character list at slashes (structural model of
`p.split("/")`). -/
def splitOnSlashAux : List Char → List Char → List String
  | [], acc => [String.mk acc.reverse]
  | c :: cs, acc =>
    if c = slashChar then String.mk acc.reverse :: splitOnSlashAux cs []
    else splitOnSlashAux cs (c :: acc)

/-- Path segments of a forward-slash path. -/
def splitOnSlash (p : String) : List String :=
  splitOnSlashAux p.data []

/-- Join path segments with slashes. -/
def joinSlash : List String → String
  | [] => ""
  | [s] => s
  | s :: r :: rs => s ++ "/" ++ joinSlash (r :: rs)

/-- Model of Node `path.normalize` for relative forward-slash paths (the
shape of every local image reference the scripts see). -/
def jsNormalize (p : String) : String :=
  if p = "" then "." else
  let segs := normSegs (splitOnSlash p) []
  if segs = [] then "." else joinSlash segs

/-! ### Media Type Resolver (`getMediaType`) -/

/-- `getMediaType` of `src/mdToEpub.js` (lines 222-239): switch on the
lower-cased `path.extname` of the file path.  Note the `.svg` case returns
the string `image/svg+xml;charset=utf-8`, with the charset parameter. -/
def getMediaType (filePath : String) : String :=
  let extension := lowerStr (jsExtname filePath)
  if extension = ".jpg" ∨ extension = ".jpeg" then "image/jpeg"
  else if extension = ".png" then "image/png"
  else if extension = ".gif" then "image/gif"
  else if extension = ".webp" then "image/webp"
  else if extension = ".svg" then "image/svg+xml;charset=utf-8"
  else "application/octet-stream"

/-- `getMediaType` of `src/unnamed/part_001` (lines 534-549): same switch
but with no `.svg` case at all, so `.svg` falls through to
`application/octet-stream`. -/
def getMediaTypeB (filePath : String) : String :=
  let extension := lowerStr (jsExtname filePath)
  if extension = ".jpg" ∨ extension = ".jpeg" then "image/jpeg"
  else if extension = ".png" then "image/png"
  else if extension = ".gif" then "image/gif"
  else if extension = ".webp" then "image/webp"
  else "application/octet-stream"

/-- The media-type mapping as the amended claim states it for
`src/mdToEpub.js` (the spec's table with the `.svg` entry corrected to the
charset-carrying string the code actually returns). -/
def mediaTypeFromExtensionSpec (extension : String) : String :=
  if extension = ".jpg" ∨ extension = ".jpeg" then "image/jpeg"
  else if extension = ".png" then "image/png"
  else if extension = ".gif" then "image/gif"
  else if extension = ".webp" then "image/webp"
  else if extension = ".svg" then "image/svg+xml;charset=utf-8"
  else "application/octet-stream"

/-- The media-type mapping of the `part_001` variant as the amended claim
states it (no `.svg` row). -/
def mediaTypeFromExtensionSpecB (extension : String) : String :=
  if extension = ".jpg" ∨ extension = ".jpeg" then "image/jpeg"
  else if extension = ".png" then "image/png"
  else if extension = ".gif" then "image/gif"
  else if extension = ".webp" then "image/webp"
  else "application/octet-stream"

/-! ### `downloadImage` extension inference (`src/mdToEpub.js` lines 429-473) -/

/-- The `switch (contentType)` table of `downloadImage`: the Content-Type
values the script maps to a fixed extension. -/
def knownImageExtMd (ct : String) : Option String :=
  if ct = "image/jpeg" then some ".jpg"
  else if ct = "image/png" then some ".png"
  else if ct = "image/gif" then some ".gif"
  else if ct = "image/webp" then some ".webp"
  else if ct = "image/svg+xml" ∨ ct = "image/svg+xml;charset=utf-8" then some ".svg"
  else none

/-- The extension chosen by `downloadImage` for a 200 response:
with a Content-Type header, the switch table, whose `default:` arm is
`path.extname(parsedUrl.pathname) || ".jpg"`; with no header, only
`path.extname(parsedUrl.pathname)` — note the missing `|| ".jpg"` in that
branch. -/
def downloadFileExtension (contentType : Option String) (urlPathname : String) : String :=
  match contentType with
  | some ct =>
    match knownImageExtMd ct with
    | some e => e
    | none => if jsExtname urlPathname = "" then ".jpg" else jsExtname urlPathname
  | none => jsExtname urlPathname

/-- The destination-path fixup of `downloadImage`: keep `dest` when its
extension already equals the inferred one, otherwise rebuild it via
`path.format` with the inferred extension. -/
def destWithExtension (dest fileExtension : String) : String :=
  let destExtension := jsExtname dest
  if destExtension = fileExtension then dest
  else jsDirname dest ++ "/" ++ jsBasenameDrop dest destExtension ++ fileExtension

/-! ### Archive Assembler: manifest, spine, navigation (`src/mdToEpub.js`) -/

/-- Book metadata as the scripts use it. -/
structure EpubMetadata where
  title : String
  author : String
deriving DecidableEq

/-- One `<item>` of the content.opf manifest. -/
structure ManifestItem where
  id : String
  href : String
  mediaType : String
  props : Option String
deriving DecidableEq

/-- One `<navPoint>` of toc.ncx. -/
structure NavPoint where
  id : String
  playOrder : Nat
  navLabel : String
  src : String
deriving DecidableEq

/-- Chapter manifest items generated by the `htmlFiles.forEach` loop of
`generateContentOpf` (id `item(index+1)`, href the file itself, fixed
XHTML media type); `i` is the running 0-based index. -/
def chapterItemsFrom (i : Nat) : List String → List ManifestItem
  | [] => []
  | f :: fs =>
    { id := "item" ++ toString (i + 1), href := f,
      mediaType := "application/xhtml+xml", props := none } :: chapterItemsFrom (i + 1) fs

/-- Spine `idref`s generated by the same loop (one per chapter, in list
order). -/
def spineIdrefsFrom (i : Nat) : List String → List String
  | [] => []
  | _ :: fs => ("item" ++ toString (i + 1)) :: spineIdrefsFrom (i + 1) fs

/-- The cover manifest item block of `generateContentOpf`: when a cover
path is given, one item with fixed id/media-type and `cover-image`
property (the `addedFiles` set is empty at this point, so the guard always
passes). -/
def coverItems : Option String → List ManifestItem
  | some cp => [{ id := "cover-image", href := "images/" ++ jsBasename cp,
                  mediaType := "image/jpeg", props := some "cover-image" }]
  | none => []

/-- Contents of the `addedFiles` set after the cover block. -/
def addedAfterCover : Option String → List String
  | some cp => ["images/" ++ jsBasename cp]
  | none => []

/-- Image manifest items of `generateContentOpf` (`src/mdToEpub.js` lines
176-184): `imageFiles.forEach` with the `addedFiles` dedup set — an item is
only emitted (and the set extended) when the href is not in the set; the
0-based `index` increments on every iteration regardless. -/
def imageItemsMd : List String → Nat → List String → List ManifestItem
  | _, _, [] => []
  | added, i, f :: fs =>
    if f ∈ added then imageItemsMd added (i + 1) fs
    else { id := "image" ++ toString (i + 1), href := f,
           mediaType := getMediaType f, props := none } :: imageItemsMd (f :: added) (i + 1) fs

/-- The `addedFiles` set after the image loop. -/
def addedAfterImages : List String → List String → List String
  | added, [] => added
  | added, f :: fs =>
    if f ∈ added then addedAfterImages added fs else addedAfterImages (f :: added) fs

/-- Resource manifest items of `generateContentOpf` (lines 186-195), with
the same dedup set, keyed on `images/<basename>`. -/
def resourceItemsMd : List String → Nat → List String → List ManifestItem
  | _, _, [] => []
  | added, i, rp :: rps =>
    if ("images/" ++ jsBasename rp) ∈ added then resourceItemsMd added (i + 1) rps
    else { id := "res" ++ toString (i + 1), href := "images/" ++ jsBasename rp,
           mediaType := getMediaType rp, props := none }
         :: resourceItemsMd (("images/" ++ jsBasename rp) :: added) (i + 1) rps

/-- The dynamic manifest items of `generateContentOpf` in emission order:
chapters, cover, images, resources, threading the `addedFiles` set. -/
def opfManifestItems (htmlFiles imageFiles : List String) (cover : Option String)
    (res : List String) : List ManifestItem :=
  chapterItemsFrom 0 htmlFiles ++ coverItems cover
    ++ imageItemsMd (addedAfterCover cover) 0 imageFiles
    ++ resourceItemsMd (addedAfterImages (addedAfterCover cover) imageFiles) 0 res

/-- Serialization of one manifest item, exactly as the template literals of
`generateContentOpf` produce it. -/
def manifestItemStr (it : ManifestItem) : String :=
  "<item id=\"" ++ it.id ++ "\" href=\"" ++ it.href ++ "\" media-type=\"" ++ it.mediaType
    ++ (match it.props with
        | some pr => "\" properties=\"" ++ pr
        | none => "")
    ++ "\"/>\n"

/-- Serialization of one spine entry. -/
def itemrefOf (id : String) : String :=
  "<itemref idref=\"" ++ id ++ "\"/>\n"

/-- The `spineItems` string accumulated by `generateContentOpf`'s chapter
loop (`spineItems += ...`). -/
def spineStrFrom (i : Nat) : List String → String
  | [] => ""
  | _ :: fs => itemrefOf ("item" ++ toString (i + 1)) ++ spineStrFrom (i + 1) fs

/-- Serialization of one navPoint, exactly as the template literal of
`generateTocNcx` produces it. -/
def navPointStr (np : NavPoint) : String :=
  "<navPoint id=\"" ++ np.id ++ "\" playOrder=\"" ++ toString np.playOrder
    ++ "\">\n      <navLabel>\n        <text>" ++ np.navLabel
    ++ "</text>\n      </navLabel>\n      <content src=\"" ++ np.src
    ++ "\"/>\n    </navPoint>\n"

/-- The navPoints of `generateTocNcx` (lines 244-256): one per html file
with id `navPoint-(index+1)`, `playOrder = index+1`, label `titles[index]`
(a JS out-of-range access interpolates as the string `undefined`), and the
file as content src. -/
def navPointsFrom (i : Nat) : List String → List String → List NavPoint
  | [], _ => []
  | f :: fs, ts =>
    { id := "navPoint-" ++ toString (i + 1), playOrder := i + 1,
      navLabel := ts.headD "undefined", src := f } :: navPointsFrom (i + 1) fs ts.tail

/-- The `navPoints` string accumulated by `generateTocNcx`. -/
def navStrFrom (i : Nat) : List String → List String → String
  | [], _ => ""
  | f :: fs, ts =>
    navPointStr { id := "navPoint-" ++ toString (i + 1), playOrder := i + 1,
                  navLabel := ts.headD "undefined", src := f }
      ++ navStrFrom (i + 1) fs ts.tail

/-- content.opf template up to the title text. -/
def opfChunk1 : String :=
  "<?xml version=\"1.0\" encoding=\"UTF-8\"?>\n    <package xmlns=\"http://www.idpf.org/2007/opf\" version=\"3.0\" unique-identifier=\"bookid\">\n        <metadata xmlns:dc=\"http://purl.org/dc/elements/1.1/\">\n            <dc:title>"

/-- content.opf template between title and creator. -/
def opfChunk2 : String :=
  "</dc:title>\n            <dc:creator>"

/-- content.opf template between creator and the identifier element. -/
def opfChunk3 : String :=
  "</dc:creator>\n            "

/-- content.opf template between the identifier element and the
modification date. -/
def opfChunk4 : String :=
  "\n            <dc:language>en</dc:language>\n            <meta property=\"dcterms:modified\">"

/-- content.opf template between the date and the manifest items. -/
def opfChunk5 : String :=
  "</meta>\n        </metadata>\n        <manifest>\n            "

/-- content.opf template between the manifest items and the spine items
(the fixed ncx/nav items live here). -/
def opfChunk6 : String :=
  "\n            <item id=\"ncx\" href=\"toc.ncx\" media-type=\"application/x-dtbncx+xml\"/>\n            <item id=\"nav\" href=\"toc.xhtml\" media-type=\"application/xhtml+xml\" properties=\"nav\"/>\n        </manifest>\n        <spine toc=\"ncx\">\n            "

/-- content.opf template tail. -/
def opfChunk7 : String :=
  "\n        </spine>\n    </package>"

/-- `generateContentOpf` of `src/mdToEpub.js` (lines 149-220).  The clock
(`new Date().toISOString().split(".")[0] + "Z"`) is passed in as
`formattedDate`; the freshly generated uuid is passed in as `uuid`, and is
interpolated once, inside the `dc:identifier` element. -/
def generateContentOpf (md : EpubMetadata) (htmlFiles imageFiles : List String)
    (cover : Option String) (res : List String) (uuid formattedDate : String) : String :=
  opfChunk1 ++ md.title ++ opfChunk2 ++ md.author ++ opfChunk3
    ++ ("<dc:identifier id=\"bookid\">urn:uuid:" ++ uuid ++ "</dc:identifier>")
    ++ opfChunk4 ++ formattedDate ++ opfChunk5
    ++ strConcat ((opfManifestItems htmlFiles imageFiles cover res).map manifestItemStr)
    ++ opfChunk6 ++ spineStrFrom 0 htmlFiles ++ opfChunk7

/-- toc.ncx template up to the `dtb:uid` meta element. -/
def ncxChunkA : String :=
  "<?xml version=\"1.0\" encoding=\"UTF-8\"?>\n  <!DOCTYPE ncx PUBLIC \"-//NISO//DTD ncx 2005-1//EN\" \"http://www.daisy.org/z3986/2005/ncx-2005-1.dtd\">\n  <ncx xmlns=\"http://www.daisy.org/z3986/2005/ncx/\" version=\"2005-1\">\n    <head>\n      "

/-- toc.ncx template between the `dtb:uid` meta and the doc title. -/
def ncxChunkB : String :=
  "\n      <meta name=\"dtb:depth\" content=\"1\"/>\n      <meta name=\"dtb:totalPageCount\" content=\"0\"/>\n      <meta name=\"dtb:maxPageNumber\" content=\"0\"/>\n    </head>\n    <docTitle>\n      <text>"

/-- toc.ncx template between the doc title and the navMap contents. -/
def ncxChunkC : String :=
  "</text>\n    </docTitle>\n    <navMap>\n      "

/-- toc.ncx template tail. -/
def ncxChunkD : String :=
  "\n    </navMap>\n  </ncx>"

/-- `generateTocNcx` of `src/mdToEpub.js` (lines 241-276).  The function
body reads the module-level `metadata` constant for the doc title (its
fourth call-site argument is silently dropped by JS), modeled by the
`gmd` parameter; the uuid is interpolated once, inside the `dtb:uid`
meta element. -/
def generateTocNcx (htmlFiles titles : List String) (uuid : String)
    (gmd : EpubMetadata) : String :=
  ncxChunkA ++ ("<meta name=\"dtb:uid\" content=\"urn:uuid:" ++ uuid ++ "\"/>")
    ++ ncxChunkB ++ gmd.title ++ ncxChunkC
    ++ navStrFrom 0 htmlFiles titles ++ ncxChunkD

/-- One list item of toc.xhtml. -/
def tocItemStr (href title : String) : String :=
  "<li><a href=\"" ++ href ++ "\">" ++ title ++ "</a></li>\n"

/-- The list items of `generateTocXhtml`. -/
def tocItemsFrom : List String → List String → String
  | [], _ => ""
  | f :: fs, ts => tocItemStr f (ts.headD "undefined") ++ tocItemsFrom fs ts.tail

/-- toc.xhtml template head. -/
def xhtmlChunkA : String :=
  "<?xml version=\"1.0\" encoding=\"UTF-8\"?>\n    <!DOCTYPE html>\n    <html xmlns=\"http://www.w3.org/1999/xhtml\" xmlns:epub=\"http://www.idpf.org/2007/ops\">\n    <head>\n        <title>目录</title>\n    </head>\n    <body>\n        <nav epub:type=\"toc\" id=\"toc\">\n            <h1>目录</h1>\n            <ol>\n                "

/-- toc.xhtml template tail. -/
def xhtmlChunkB : String :=
  "\n            </ol>\n        </nav>\n    </body>\n    </html>"

/-- `generateTocXhtml` of `src/mdToEpub.js` (lines 278-304). -/
def generateTocXhtml (htmlFiles titles : List String) : String :=
  xhtmlChunkA ++ tocItemsFrom htmlFiles titles ++ xhtmlChunkB

/-- Insertion-order dedup of a string list: the semantics of
`[...new Set(imageFiles)]` in `createEpub` (line 637). -/
def listDedupGo : List String → List String → List String
  | _, [] => []
  | seen, x :: xs =>
    if x ∈ seen then listDedupGo seen xs else x :: listDedupGo (x :: seen) xs

/-- JS `[...new Set(l)]`. -/
def listDedup (l : List String) : List String :=
  listDedupGo [] l

/-- The three derived documents produced by one `createEpub` invocation of
`src/mdToEpub.js` (lines 651-666): `uuid = uuidv4()` is evaluated exactly
once and the same value is passed to `generateContentOpf` and
`generateTocNcx`; the opf receives `[...new Set(imageFiles), "images/placeholder.svg"]`.
`md` is the `metadata` argument of `createEpub`; `gmd` is the module-level
`metadata` constant that `generateTocNcx` actually reads. -/
structure EpubDocs where
  contentOpf : String
  tocXhtml : String
  tocNcx : String

/-- The document-generation step of `createEpub`. -/
def createEpubDocs (md gmd : EpubMetadata) (htmlFiles titles imageFiles : List String)
    (cover : Option String) (res : List String) (uuid formattedDate : String) : EpubDocs :=
  { contentOpf := generateContentOpf md htmlFiles
      (listDedup imageFiles ++ ["images/placeholder.svg"]) cover res uuid formattedDate
    tocXhtml := generateTocXhtml htmlFiles titles
    tocNcx := generateTocNcx htmlFiles titles uuid gmd }

/-- Image manifest items of the `generateContentOpf` in
`src/unnamed/part_001` (lines 494-499): a plain `imageFiles.forEach` with
no dedup set — every element of `imageFiles` yields its own `<item>`. -/
def imageItemsB (i : Nat) : List String → List ManifestItem
  | [] => []
  | f :: fs =>
    { id := "image" ++ toString (i + 1), href := f,
      mediaType := getMediaTypeB f, props := none } :: imageItemsB (i + 1) fs

/-- Occurrences of a href among manifest items. -/
def countHref : List ManifestItem → String → Nat
  | [], _ => 0
  | it :: its, h => (if it.href = h then 1 else 0) + countHref its h

/-- Occurrences of a string in a list. -/
def countStr : List String → String → Nat
  | [], _ => 0
  | x :: xs, h => (if x = h then 1 else 0) + countStr xs h

/-- 0-based index of the first occurrence of `h` (length of the list when
absent). -/
def firstIdx (h : String) : List String → Nat
  | [] => 0
  | x :: xs => if x = h then 0 else firstIdx h xs + 1

/-! ### Archive skeleton (`initializeEpubStructure`) -/

/-- One entry added to the JSZip archive, in call order.  `storeUncompressed`
records a `compression: "STORE"` option. -/
inductive ZipEntry where
  | file (name content : String) (storeUncompressed : Bool) : ZipEntry
  | folder (name : String) : ZipEntry
deriving DecidableEq

/-- The `META-INF/container.xml` literal shared by all variants. -/
def containerXml : String :=
  "<?xml version=\"1.0\"?>\n    <container version=\"1.0\" xmlns=\"urn:oasis:names:tc:opendocument:xmlns:container\">\n    <rootfiles>\n        <rootfile full-path=\"OEBPS/content.opf\" media-type=\"application/oebps-package+xml\"/>\n    </rootfiles>\n    </container>"

/-- The entries added by `initializeEpubStructure` of `src/mdToEpub.js`
(lines 306-320), in call order: the mimetype file (STORE) first, then the
two folders, then container.xml.  The `initializeEpubStructure` of
`src/unnamed/part_001` (lines 616-630) is identical. -/
def initEpubStructureMd : List ZipEntry :=
  [ZipEntry.file "mimetype" "application/epub+zip" true,
   ZipEntry.folder "META-INF",
   ZipEntry.folder "OEBPS",
   ZipEntry.file "META-INF/container.xml" containerXml false]

/-- The entries added by `initializeEpubStructure` of `src/markedZip.js`
(lines 100-116), in call order: both folder entries are created BEFORE the
mimetype file is added. -/
def initEpubStructureMarkedZip : List ZipEntry :=
  [ZipEntry.folder "META-INF",
   ZipEntry.folder "OEBPS",
   ZipEntry.file "mimetype" "application/epub+zip" true,
   ZipEntry.file "META-INF/container.xml" containerXml false]

/-! ### createEpub failure handling (`src/mdToEpub.js` lines 622-678) -/

/-- Observable outcome of the tail of `createEpub`: the `fs.writeFileSync`
calls hitting the final output path, the console log lines of the
`try/catch`, and what the awaited promise of `createEpub` delivers to the
caller. -/
structure BuildOutcome where
  epubWrites : List (String × String)
  logs : List String
  result : Except String Unit

/-- The document-generation and archive-write tail of `createEpub`, with
the three derived-document generation steps abstracted as `Except` values
(`Except.error e` models a thrown exception, as the claim's hypothesis
requires).  Mirrors the source control flow: generate content.opf, then
toc.xhtml, then toc.ncx, and only after all three succeed serialize the
zip and `fs.writeFileSync(epubPath, content)`; any throw lands in the
`catch (error)` block, which only calls `console.error("EPUB创建失败:", error)`
— it does not rethrow, so the promise returned to the caller resolves. -/
def createEpubFinish (epubPath zipContent : String)
    (gOpf gNav gNcx : Except String String) : BuildOutcome :=
  match gOpf with
  | Except.error e => { epubWrites := [], logs := ["EPUB创建失败:" ++ e], result := Except.ok () }
  | Except.ok _ =>
    match gNav with
    | Except.error e => { epubWrites := [], logs := ["EPUB创建失败:" ++ e], result := Except.ok () }
    | Except.ok _ =>
      match gNcx with
      | Except.error e => { epubWrites := [], logs := ["EPUB创建失败:" ++ e], result := Except.ok () }
      | Except.ok _ =>
        { epubWrites := [(epubPath, zipContent)],
          logs := ["EPUB创建成功: " ++ epubPath],
          result := Except.ok () }

/-! ### Image Localizer (`processImages`) -/

/-- The object returned by the per-match async closure of `processImages`
in `src/mdToEpub.js` (lines 534-573). -/
structure ImgOutcome where
  src : String
  newSrc : String
  jsStatus : String
deriving DecidableEq

/-- The per-match async closure of `processImages` in `src/mdToEpub.js`:
for a remote (`http`-prefixed) src it awaits `downloadImage` — modeled by
the `fetch` oracle, whose `Except.error` covers network errors, timeouts,
non-2xx/3xx statuses and URL-parse throws — and on failure the `catch`
returns the placeholder object; a non-remote src is returned unchanged
(no resolution, no existence check).  The closure itself never rejects,
which is why `Promise.allSettled` always reports it fulfilled. -/
def imageClosure (fetch : String → Except String String) (epubDir src : String) :
    Except String ImgOutcome :=
  if jsStartsWith src "http" then
    match fetch src with
    | Except.ok downloadedImagePath =>
      Except.ok { src := src, newSrc := stripDirPre epubDir downloadedImagePath,
                  jsStatus := "fulfilled" }
    | Except.error _ =>
      Except.ok { src := src, newSrc := "images/placeholder.svg", jsStatus := "rejected" }
  else
    Except.ok { src := src, newSrc := src, jsStatus := "fulfilled" }

/-- Sequence a list of `Except` computations (the settled results of the
download promises, in match order). -/
def exceptMapM {α β : Type} (f : α → Except String β) : List α → Except String (List β)
  | [] => Except.ok []
  | x :: xs =>
    match f x with
    | Except.error e => Except.error e
    | Except.ok y =>
      match exceptMapM f xs with
      | Except.error e => Except.error e
      | Except.ok ys => Except.ok (y :: ys)

/-- The `results.forEach` application pass of `processImages` (lines
581-596): rewrite `src="<old>"` to `src="<new>"` (first occurrence, JS
`replace` semantics), and for every non-placeholder newSrc push it onto
`imageFiles` and read `path.join(epubDir, newSrc)` for the zip —
`fs.readFileSync` throws when that file does not exist, modeled via the
`fsExists` oracle. -/
def applyResultsGo (fsExists : String → Bool) (epubDir : String) :
    List ImgOutcome → String → List String → Except String (String × List String)
  | [], content, acc => Except.ok (content, acc)
  | o :: os, content, acc =>
    let content2 := replaceFirstStr content ("src=\"" ++ o.src ++ "\"") ("src=\"" ++ o.newSrc ++ "\"")
    if o.newSrc = "images/placeholder.svg" then
      applyResultsGo fsExists epubDir os content2 acc
    else if fsExists (epubDir ++ "/" ++ o.newSrc) then
      applyResultsGo fsExists epubDir os content2 (acc ++ [o.newSrc])
    else Except.error ("ENOENT: " ++ (epubDir ++ "/" ++ o.newSrc))

/-- One chapter of `processImages` in `src/mdToEpub.js` (lines 520-602):
the regex-extracted `src` attributes are taken as the `srcs` input; the
closures are awaited, then the results pass rewrites the content and
collects `imageFiles`. -/
def processImagesChapterMd (fetch : String → Except String String)
    (fsExists : String → Bool) (epubDir : String) (srcs : List String)
    (content : String) : Except String (String × List String) :=
  match exceptMapM (imageClosure fetch epubDir) srcs with
  | Except.error e => Except.error e
  | Except.ok outs => applyResultsGo fsExists epubDir outs content []

/-- What one image reference contributes in the `processImages` of
`src/unnamed/part_001` (lines 850-912): the rewritten src, the value
pushed onto `imageFiles` (if any), and the zip path written (if any). -/
structure ImgStepB where
  newSrc : String
  pushed : Option String
  zipPath : Option String
deriving DecidableEq

/-- The remote branch of part_001's `processImages` (lines 853-888): on a
successful download push and zip the epub-relative path, on failure rewrite
the whole tag to the placeholder and push nothing. -/
def remoteImageStepB (fetch : String → Except String String) (epubDir src : String) : ImgStepB :=
  match fetch src with
  | Except.ok downloadedImagePath =>
    let localImagePath := stripDirPre epubDir downloadedImagePath
    { newSrc := localImagePath, pushed := some localImagePath, zipPath := some localImagePath }
  | Except.error _ =>
    { newSrc := "images/placeholder.svg", pushed := none, zipPath := none }

/-- The local branch of part_001's `processImages` (lines 889-911): the
reference is normalized and resolved against `epubDir` (the working
`OEBPS` directory, not the markdown source directory); when the file
exists it is zipped at that resolved path (not copied into `images/`) and
the normalized path pushed; when it does not exist the tag is rewritten to
the placeholder. -/
def localImageStepB (fsExists : String → Bool) (epubDir src : String) : ImgStepB :=
  if fsExists (epubDir ++ "/" ++ jsNormalize src) then
    { newSrc := jsNormalize src, pushed := some (jsNormalize src),
      zipPath := some (epubDir ++ "/" ++ jsNormalize src) }
  else
    { newSrc := "images/placeholder.svg", pushed := none, zipPath := none }

/-- One image reference of part_001's `processImages`. -/
def imageStepB (fetch : String → Except String String) (fsExists : String → Bool)
    (epubDir src : String) : ImgStepB :=
  if jsStartsWith src "http" then remoteImageStepB fetch epubDir src
  else localImageStepB fsExists epubDir src

/-- The `imageFiles` list part_001's `processImages` returns for one
chapter's matches (every step's push, in order). -/
def imageFilesB (fetch : String → Except String String) (fsExists : String → Bool)
    (epubDir : String) (srcs : List String) : List String :=
  (srcs.map (imageStepB fetch fsExists epubDir)).filterMap (fun st => st.pushed)

/-! ### `codeToMarkdown` (`src/index.js` lines 57-67, `src/repoTomd.js` lines 38-48) -/

/-- Longest run of consecutive `c` in the list: the value of
`(content.match(/`+/g) || []).reduce((max, curr) => Math.max(max, curr.length), 0)`
(`cur` is the current run, `best` the best completed one). -/
def maxRunAux (c : Char) : List Char → Nat → Nat → Nat
  | [], cur, best => max cur best
  | x :: xs, cur, best =>
    if x = c then maxRunAux c xs (cur + 1) best
    else maxRunAux c xs 0 (max cur best)

/-- Longest backtick run of a content string. -/
def maxBacktickRun (s : String) : Nat :=
  maxRunAux backtickChar s.data 0 0

/-- JS `"`".repeat(n)`. -/
def fenceOf (n : Nat) : String :=
  String.mk (List.replicate n backtickChar)

/-- `codeToMarkdown` of `src/index.js` / `src/repoTomd.js`: a
whitespace-only (or non-string) language is normalized to `""`; the fence
is `max(3, maxBackticks + 1)` backticks; output is
fence ++ language ++ newline ++ content ++ newline ++ fence. -/
def codeToMarkdown (content language : String) : String :=
  let lang := if jsTrim language = "" then "" else language
  let backtickSequence := fenceOf (max 3 (maxBacktickRun content + 1))
  backtickSequence ++ lang ++ "\n" ++ content ++ "\n" ++ backtickSequence

/-- Concrete download oracle for the duplicate-URL scenario: the one URL
of the chapter downloads successfully to `OEBPS/images/a.png`. -/
def c6FetchOracle : String → Except String String :=
  fun s => if s = "http://h/a.png" then Except.ok "OEBPS/images/a.png"
           else Except.error "network error"

/-! ## Lemmas -/

/-- Length of the spine idref list. -/
theorem spineIdrefsFrom_length : ∀ (fs : List String) (i : Nat),
    (spineIdrefsFrom i fs).length = fs.length
  | [], _ => rfl
  | _ :: fs, i => by simp [spineIdrefsFrom, spineIdrefsFrom_length fs (i + 1)]

/-- The `k`-th spine idref is `item(i+k+1)`. -/
theorem spineIdrefsFrom_getD : ∀ (fs : List String) (i k : Nat), k < fs.length →
    (spineIdrefsFrom i fs).getD k "" = "item" ++ toString (i + k + 1)
  | [], _, k, h => absurd h (by simp)
  | _ :: _, _, 0, _ => rfl
  | _ :: fs, i, k + 1, h => by
    have hk : k < fs.length := by simpa using Nat.lt_of_succ_lt_succ h
    have ih := spineIdrefsFrom_getD fs (i + 1) k hk
    rw [show i + 1 + k + 1 = i + (k + 1) + 1 from by omega] at ih
    simpa [spineIdrefsFrom] using ih

/-- Length of the navPoint list. -/
theorem navPointsFrom_length : ∀ (fs ts : List String) (i : Nat),
    (navPointsFrom i fs ts).length = fs.length
  | [], _, _ => rfl
  | _ :: fs, ts, i => by simp [navPointsFrom, navPointsFrom_length fs ts.tail (i + 1)]

/-- `tail`-then-index equals indexing one further. -/
theorem tail_getD (ts : List String) (k : Nat) (d : String) :
    ts.tail.getD k d = ts.getD (k + 1) d := by
  cases ts <;> simp [List.getD]

/-- The `k`-th navPoint of `generateTocNcx`'s loop. -/
theorem navPointsFrom_getD : ∀ (fs ts : List String) (i k : Nat), k < fs.length →
    (navPointsFrom i fs ts).getD k { id := "", playOrder := 0, navLabel := "", src := "" }
      = { id := "navPoint-" ++ toString (i + k + 1), playOrder := i + k + 1,
          navLabel := ts.getD k "undefined", src := fs.getD k "" }
  | [], _, _, k, h => absurd h (by simp)
  | _ :: _, ts, _, 0, _ => by
    simp [navPointsFrom, List.getD]
    cases ts <;> simp [List.getD]
  | _ :: fs, ts, i, k + 1, h => by
    have hk : k < fs.length := by simpa using Nat.lt_of_succ_lt_succ h
    have ih := navPointsFrom_getD fs ts.tail (i + 1) k hk
    rw [show i + 1 + k + 1 = i + (k + 1) + 1 from by omega, tail_getD ts k] at ih
    simpa [navPointsFrom] using ih

/-- Length of the chapter manifest-item list. -/
theorem chapterItemsFrom_length : ∀ (fs : List String) (i : Nat),
    (chapterItemsFrom i fs).length = fs.length
  | [], _ => rfl
  | _ :: fs, i => by simp [chapterItemsFrom, chapterItemsFrom_length fs (i + 1)]

/-- The `k`-th chapter manifest item. -/
theorem chapterItemsFrom_getD : ∀ (fs : List String) (i k : Nat), k < fs.length →
    (chapterItemsFrom i fs).getD k { id := "", href := "", mediaType := "", props := none }
      = { id := "item" ++ toString (i + k + 1), href := fs.getD k "",
          mediaType := "application/xhtml+xml", props := none }
  | [], _, k, h => absurd h (by simp)
  | _ :: _, _, 0, _ => by simp [chapterItemsFrom, List.getD]
  | _ :: fs, i, k + 1, h => by
    have hk : k < fs.length := by simpa using Nat.lt_of_succ_lt_succ h
    have ih := chapterItemsFrom_getD fs (i + 1) k hk
    rw [show i + 1 + k + 1 = i + (k + 1) + 1 from by omega] at ih
    simpa [chapterItemsFrom] using ih

/-- The accumulated spine string is the concatenation of the serialized
idref list. -/
theorem spineStrFrom_eq : ∀ (fs : List String) (i : Nat),
    spineStrFrom i fs = strConcat ((spineIdrefsFrom i fs).map itemrefOf)
  | [], _ => rfl
  | _ :: fs, i => by
    simp [spineStrFrom, spineIdrefsFrom, strConcat, spineStrFrom_eq fs (i + 1)]

/-- The accumulated navMap string is the concatenation of the serialized
navPoint list. -/
theorem navStrFrom_eq : ∀ (fs ts : List String) (i : Nat),
    navStrFrom i fs ts = strConcat ((navPointsFrom i fs ts).map navPointStr)
  | [], _, _ => rfl
  | _ :: fs, ts, i => by
    simp [navStrFrom, navPointsFrom, strConcat, navStrFrom_eq fs ts.tail (i + 1)]

/-! ## Claim theorems -/

/-- C1: for every single `createEpub` build, the uuid embedded in
content.opf's `dc:identifier` (as `urn:uuid:<uuid>`) and the uuid embedded
in toc.ncx's `dtb:uid` meta element are the same value: the one `uuidv4()`
result generated once per build and passed to both document generators.
Stated as: for every input, both generated documents decompose around the
identifying element carrying the very same `uuid` string. -/
theorem uuid_shared_across_opf_and_ncx (md gmd : EpubMetadata)
    (htmlFiles titles imageFiles : List String) (cover : Option String)
    (res : List String) (uuid formattedDate : String) :
    ∃ a b c d : String,
      (createEpubDocs md gmd htmlFiles titles imageFiles cover res uuid formattedDate).contentOpf
        = a ++ ("<dc:identifier id=\"bookid\">urn:uuid:" ++ uuid ++ "</dc:identifier>") ++ b
      ∧ (createEpubDocs md gmd htmlFiles titles imageFiles cover res uuid formattedDate).tocNcx
        = c ++ ("<meta name=\"dtb:uid\" content=\"urn:uuid:" ++ uuid ++ "\"/>") ++ d := by
  refine ⟨opfChunk1 ++ md.title ++ opfChunk2 ++ md.author ++ opfChunk3,
    opfChunk4 ++ formattedDate ++ opfChunk5
      ++ strConcat ((opfManifestItems htmlFiles
            (listDedup imageFiles ++ ["images/placeholder.svg"]) cover res).map manifestItemStr)
      ++ opfChunk6 ++ spineStrFrom 0 htmlFiles ++ opfChunk7,
    ncxChunkA,
    ncxChunkB ++ gmd.title ++ ncxChunkC ++ navStrFrom 0 htmlFiles titles ++ ncxChunkD,
    ?_, ?_⟩
  · simp only [createEpubDocs, generateContentOpf, String.append_assoc]
  · simp only [createEpubDocs, generateTocNcx, String.append_assoc]

/-- C2: for every chapter list of length N, the spine of the generated
content.opf has exactly N itemref entries and the generated toc.ncx has
exactly N navPoints, in chapter-list order: the k-th spine idref is
`item(k+1)` (the id the k-th chapter's manifest item carries, whose href is
the k-th chapter), the k-th navPoint has `playOrder = k+1` and points at
the k-th chapter; the serialized spine/navMap strings are exactly the
concatenations of those entries in order. -/
theorem spine_and_navmap_match_chapter_list (htmlFiles titles : List String) :
    (spineIdrefsFrom 0 htmlFiles).length = htmlFiles.length
    ∧ (navPointsFrom 0 htmlFiles titles).length = htmlFiles.length
    ∧ (∀ k, k < htmlFiles.length →
        (spineIdrefsFrom 0 htmlFiles).getD k "" = "item" ++ toString (k + 1)
        ∧ ((navPointsFrom 0 htmlFiles titles).getD k
            { id := "", playOrder := 0, navLabel := "", src := "" }).playOrder = k + 1
        ∧ ((navPointsFrom 0 htmlFiles titles).getD k
            { id := "", playOrder := 0, navLabel := "", src := "" }).src = htmlFiles.getD k ""
        ∧ ((chapterItemsFrom 0 htmlFiles).getD k
            { id := "", href := "", mediaType := "", props := none }).id
              = "item" ++ toString (k + 1)
        ∧ ((chapterItemsFrom 0 htmlFiles).getD k
            { id := "", href := "", mediaType := "", props := none }).href
              = htmlFiles.getD k "")
    ∧ spineStrFrom 0 htmlFiles = strConcat ((spineIdrefsFrom 0 htmlFiles).map itemrefOf)
    ∧ navStrFrom 0 htmlFiles titles
        = strConcat ((navPointsFrom 0 htmlFiles titles).map navPointStr) := by
  refine ⟨spineIdrefsFrom_length htmlFiles 0, navPointsFrom_length htmlFiles titles 0,
    fun k hk => ?_, spineStrFrom_eq htmlFiles 0, navStrFrom_eq htmlFiles titles 0⟩
  have h1 := spineIdrefsFrom_getD htmlFiles 0 k hk
  have h2 := navPointsFrom_getD htmlFiles titles 0 k hk
  have h3 := chapterItemsFrom_getD htmlFiles 0 k hk
  rw [Nat.zero_add] at h1 h2 h3
  exact ⟨h1, by rw [h2], by rw [h2], by rw [h3], by rw [h3]⟩

/-- Witness for C2 at a concrete two-chapter build: the second spine entry
references `item2`. -/
theorem spine_and_navmap_match_chapter_list_witness :
    (spineIdrefsFrom 0 ["a.xhtml", "b.xhtml"]).getD 1 "" = "item" ++ toString (1 + 1) :=
  ((spine_and_navmap_match_chapter_list ["a.xhtml", "b.xhtml"] ["a", "b"]).2.2.1
    1 (by decide)).1

/-- C3 (counterexample): at a concrete build where toc.xhtml generation
throws `boom`, the promise `createEpub` returns still resolves: the error
is NOT surfaced to the caller, contrary to the claim (the `catch` block
only logs it). -/
theorem build_failure_error_swallowed_cex :
    (createEpubFinish "output.epub" "ZIPBYTES" (Except.ok "opf")
        (Except.error "boom") (Except.ok "ncx")).result = Except.ok ()
    ∧ ¬ ∃ e, (createEpubFinish "output.epub" "ZIPBYTES" (Except.ok "opf")
        (Except.error "boom") (Except.ok "ncx")).result = Except.error e := by
  refine ⟨rfl, ?_⟩
  rintro ⟨e, he⟩
  simp [createEpubFinish] at he

/-- C3 (amended): if generation of any derived document throws during
`createEpub`, nothing is ever written to the final output path (the file
at `epubPath` is left untouched) and the failure is reported — but only on
the console log; the error is swallowed by the `catch` block, so the
promise the caller awaits resolves normally instead of rejecting. -/
theorem build_failure_no_output_written (epubPath zipContent : String)
    (gOpf gNav gNcx : Except String String)
    (h : (∃ e, gOpf = Except.error e) ∨ (∃ e, gNav = Except.error e)
          ∨ (∃ e, gNcx = Except.error e)) :
    (createEpubFinish epubPath zipContent gOpf gNav gNcx).epubWrites = []
    ∧ (∃ e, (createEpubFinish epubPath zipContent gOpf gNav gNcx).logs
          = ["EPUB创建失败:" ++ e])
    ∧ (createEpubFinish epubPath zipContent gOpf gNav gNcx).result = Except.ok () := by
  cases gOpf with
  | error e => exact ⟨rfl, ⟨e, rfl⟩, rfl⟩
  | ok o =>
    cases gNav with
    | error e => exact ⟨rfl, ⟨e, rfl⟩, rfl⟩
    | ok n =>
      cases gNcx with
      | error e => exact ⟨rfl, ⟨e, rfl⟩, rfl⟩
      | ok c =>
        rcases h with ⟨e, he⟩ | ⟨e, he⟩ | ⟨e, he⟩ <;> exact Except.noConfusion he

/-- Witness for C3 (amended) at a concrete failing build. -/
theorem build_failure_no_output_written_witness :
    (createEpubFinish "book.epub" "Z" (Except.ok "o")
        (Except.error "serialization error") (Except.ok "n")).epubWrites = [] :=
  (build_failure_no_output_written "book.epub" "Z" (Except.ok "o")
    (Except.error "serialization error") (Except.ok "n")
    (Or.inr (Or.inl ⟨"serialization error", rfl⟩))).1

/-- C7 (counterexample): for a `.svg` file the resolver of
`src/mdToEpub.js` returns `image/svg+xml;charset=utf-8`, not the
`image/svg+xml` the claim states; the resolver of `src/unnamed/part_001`
has no `.svg` case at all and returns `application/octet-stream`. -/
theorem svg_media_type_cex :
    getMediaType "a.svg" = "image/svg+xml;charset=utf-8"
    ∧ getMediaType "a.svg" ≠ "image/svg+xml"
    ∧ getMediaTypeB "a.svg" = "application/octet-stream" := by decide

/-- C7 (amended): `getMediaType` is a total function of the lower-cased
extension implementing the fixed mapping `.jpg`/`.jpeg` to `image/jpeg`,
`.png` to `image/png`, `.gif` to `image/gif`, `.webp` to `image/webp`,
`.svg` to `image/svg+xml;charset=utf-8` (the charset parameter included),
everything else to `application/octet-stream`; the `part_001` variant is
the same mapping without the `.svg` row. -/
theorem media_type_mapping_amended (p : String) :
    getMediaType p = mediaTypeFromExtensionSpec (lowerStr (jsExtname p))
    ∧ getMediaTypeB p = mediaTypeFromExtensionSpecB (lowerStr (jsExtname p)) :=
  ⟨rfl, rfl⟩

/-- C9 (counterexample): for a 200 response with no Content-Type header
whose URL path has no extension, the saved file does NOT get a `.jpg`
extension: the header-less branch has no `|| ".jpg"` fallback, so the
destination keeps no extension at all. -/
theorem missing_content_type_no_jpg_fallback_cex :
    downloadFileExtension none "/img/photo" = ""
    ∧ destWithExtension "OEBPS/images/photo" (downloadFileExtension none "/img/photo")
        = "OEBPS/images/photo"
    ∧ jsExtname (destWithExtension "OEBPS/images/photo"
        (downloadFileExtension none "/img/photo")) ≠ ".jpg" := by decide

/-- C9 (amended): when a Content-Type header is present, `downloadImage`
maps known image types to their fixed extension and otherwise falls back to
the URL path's extension and then to `.jpg`; when the header is absent it
uses only the URL path's extension, with no `.jpg` fallback. -/
theorem download_extension_chain_amended (ct pathname : String)
    (h : knownImageExtMd ct = none) :
    downloadFileExtension (some ct) pathname
        = (if jsExtname pathname = "" then ".jpg" else jsExtname pathname)
    ∧ downloadFileExtension none pathname = jsExtname pathname
    ∧ (∀ ct2 e, knownImageExtMd ct2 = some e
          → downloadFileExtension (some ct2) pathname = e) := by
  refine ⟨?_, rfl, ?_⟩
  · simp [downloadFileExtension, h]
  · intro ct2 e he
    simp [downloadFileExtension, he]

/-- Witness for C9 (amended): an unknown `text/html` Content-Type falls
back to the URL path's `.png` extension. -/
theorem download_extension_chain_amended_witness :
    downloadFileExtension (some "text/html") "/img/photo.png"
      = (if jsExtname "/img/photo.png" = "" then ".jpg" else jsExtname "/img/photo.png") :=
  (download_extension_chain_amended "text/html" "/img/photo.png" (by decide)).1

/-- C8: evaluation of the archive-skeleton order.  In `src/mdToEpub.js`
(and `src/unnamed/part_001`) every build's first archive entry is the
uncompressed `mimetype` file with literal content `application/epub+zip`;
in `src/markedZip.js` the `META-INF` and `OEBPS` folder entries are created
first and the mimetype file is only the third entry — contradicting the
spec's hard requirement that mimetype be the first entry. -/
theorem mimetype_entry_order_eval :
    (∀ later : List ZipEntry, (initEpubStructureMd ++ later).head?
        = some (ZipEntry.file "mimetype" "application/epub+zip" true))
    ∧ (∀ later : List ZipEntry, (initEpubStructureMarkedZip ++ later).head?
        = some (ZipEntry.folder "META-INF"))
    ∧ initEpubStructureMarkedZip.getD 2 (ZipEntry.folder "")
        = ZipEntry.file "mimetype" "application/epub+zip" true := by
  exact ⟨fun _ => rfl, fun _ => rfl, rfl⟩

/-- If `pat` is a Boolean prefix of `l` then `l` decomposes as `pat`
followed by the remaining characters. -/
theorem listStartsWith_decomp : ∀ (pat l : List Char), listStartsWith pat l = true →
    l = pat ++ l.drop pat.length
  | [], l, _ => by simp
  | _ :: _, [], h => by simp [listStartsWith] at h
  | p :: ps, x :: xs, h => by
    simp only [listStartsWith, Bool.and_eq_true, decide_eq_true_eq] at h
    obtain ⟨h1, h2⟩ := h
    have ih := listStartsWith_decomp ps xs h2
    simp only [List.length_cons, List.drop_succ_cons, List.cons_append]
    rw [h1]
    exact congrArg (x :: ·) ih

/-- A found pattern decomposes the list around its first occurrence, and
`replaceFirstAux` returns the list with that occurrence replaced. -/
theorem replaceFirstAux_decomp : ∀ (l pat rep : List Char), hasSub pat l = true →
    ∃ a b, replaceFirstAux pat rep l = some (a ++ rep ++ b) ∧ l = a ++ pat ++ b
  | [], pat, rep, h => by
    have hsw : listStartsWith pat [] = true := by simpa [hasSub] using h
    refine ⟨[], [], ?_, ?_⟩
    · simp [replaceFirstAux, hsw]
    · cases pat with
      | nil => rfl
      | cons p ps => simp [listStartsWith] at hsw
  | x :: xs, pat, rep, h => by
    by_cases hsw : listStartsWith pat (x :: xs) = true
    · refine ⟨[], (x :: xs).drop pat.length, ?_, ?_⟩
      · simp [replaceFirstAux, hsw]
      · simpa using listStartsWith_decomp pat (x :: xs) hsw
    · have h2 : hasSub pat xs = true := by
        simp only [hasSub, Bool.or_eq_true] at h
        cases h with
        | inl h => exact absurd h hsw
        | inr h => exact h
      obtain ⟨a, b, h3, h4⟩ := replaceFirstAux_decomp xs pat rep h2
      refine ⟨x :: a, b, ?_, by simp [h4]⟩
      simp [replaceFirstAux, hsw, h3]

/-- When the pattern occurs, the JS-style first-occurrence replacement
leaves the replacement text in the result. -/
theorem replaceFirstStr_decomp (s pat rep : String)
    (h : hasSub pat.data s.data = true) :
    ∃ a b : List Char, (replaceFirstStr s pat rep).data = a ++ rep.data ++ b := by
  obtain ⟨a, b, h1, _⟩ := replaceFirstAux_decomp s.data pat.data rep.data h
  exact ⟨a, b, by simp [replaceFirstStr, h1]⟩

/-- C4: a remote image reference whose fetch fails (network error,
timeout, or non-2xx/3xx status — all surfaced as a rejected
`downloadImage` promise) is caught inside the per-match closure, which
yields the placeholder outcome instead of rejecting; the chapter pass then
completes normally (no exception reaches the build), rewriting the
reference to `images/placeholder.svg` and registering no image file. -/
theorem remote_fetch_failure_uses_placeholder
    (fetch : String → Except String String) (fsExists : String → Bool)
    (epubDir content src e : String)
    (hh : jsStartsWith src "http" = true)
    (hf : fetch src = Except.error e)
    (hocc : hasSub ("src=\"" ++ src ++ "\"").data content.data = true) :
    imageClosure fetch epubDir src
        = Except.ok { src := src, newSrc := "images/placeholder.svg", jsStatus := "rejected" }
    ∧ processImagesChapterMd fetch fsExists epubDir [src] content
        = Except.ok (replaceFirstStr content ("src=\"" ++ src ++ "\"")
            ("src=\"" ++ "images/placeholder.svg" ++ "\""), [])
    ∧ ∃ a b : List Char,
        (replaceFirstStr content ("src=\"" ++ src ++ "\"")
            ("src=\"" ++ "images/placeholder.svg" ++ "\"")).data
          = a ++ ("src=\"" ++ "images/placeholder.svg" ++ "\"").data ++ b := by
  have hc : imageClosure fetch epubDir src
      = Except.ok { src := src, newSrc := "images/placeholder.svg", jsStatus := "rejected" } := by
    simp [imageClosure, hh, hf]
  refine ⟨hc, ?_, ?_⟩
  · simp [processImagesChapterMd, exceptMapM, hc, applyResultsGo]
  · exact replaceFirstStr_decomp content _ _ hocc

/-- Witness for C4 at a concrete chapter with one 404-ing remote image. -/
theorem remote_fetch_failure_uses_placeholder_witness :
    imageClosure (fun _ => Except.error "HTTP 404") "OEBPS" "http://x/a.png"
      = Except.ok { src := "http://x/a.png", newSrc := "images/placeholder.svg",
                    jsStatus := "rejected" } :=
  (remote_fetch_failure_uses_placeholder (fun _ => Except.error "HTTP 404")
    (fun _ => false) "OEBPS" "<p><img src=\"http://x/a.png\" /></p>" "http://x/a.png"
    "HTTP 404" (by decide) rfl (by decide)).1

/-- C5 (counterexample): in `src/mdToEpub.js`, a local reference to a
non-existent file is NOT rewritten to the placeholder — the closure returns
it unchanged (no resolution against any directory, no existence check), and
the subsequent zip step's `fs.readFileSync` throws, aborting the chapter
pass instead of substituting the placeholder. -/
theorem local_missing_file_no_placeholder_cex :
    imageClosure (fun _ => Except.error "unused") "OEBPS" "pics/missing.png"
      = Except.ok { src := "pics/missing.png", newSrc := "pics/missing.png",
                    jsStatus := "fulfilled" }
    ∧ ("pics/missing.png" : String) ≠ "images/placeholder.svg"
    ∧ processImagesChapterMd (fun _ => Except.error "unused") (fun _ => false) "OEBPS"
        ["pics/missing.png"] "<img src=\"pics/missing.png\" />"
      = Except.error ("ENOENT: " ++ ("OEBPS" ++ "/" ++ "pics/missing.png")) :=
  ⟨rfl, by decide, rfl⟩

/-- C5 (amended): in `src/mdToEpub.js` a local relative reference passes
through the image closure unchanged (no resolution, no copy, no existence
check), and a missing file makes the chapter pass throw at the zip-read
step; in the `src/unnamed/part_001` variant the reference is normalized
and resolved against the working archive directory (`OEBPS`, not the
markdown source directory): an existing file is registered in the archive
at that resolved path (not copied into the image directory) with the
reference rewritten to the normalized path, and a missing file is
rewritten to the placeholder path. -/
theorem local_image_reference_behavior
    (fetch : String → Except String String) (fsExists : String → Bool)
    (epubDir src content : String)
    (hlocal : jsStartsWith src "http" = false) :
    imageClosure fetch epubDir src
        = Except.ok { src := src, newSrc := src, jsStatus := "fulfilled" }
    ∧ (fsExists (epubDir ++ "/" ++ src) = false → src ≠ "images/placeholder.svg" →
        processImagesChapterMd fetch fsExists epubDir [src] content
          = Except.error ("ENOENT: " ++ (epubDir ++ "/" ++ src)))
    ∧ (fsExists (epubDir ++ "/" ++ jsNormalize src) = true →
        localImageStepB fsExists epubDir src
          = { newSrc := jsNormalize src, pushed := some (jsNormalize src),
              zipPath := some (epubDir ++ "/" ++ jsNormalize src) })
    ∧ (fsExists (epubDir ++ "/" ++ jsNormalize src) = false →
        localImageStepB fsExists epubDir src
          = { newSrc := "images/placeholder.svg", pushed := none, zipPath := none }) := by
  refine ⟨by simp [imageClosure, hlocal], ?_, ?_, ?_⟩
  · intro hfs hne
    simp [processImagesChapterMd, exceptMapM, imageClosure, hlocal,
      applyResultsGo, hfs, hne]
  · intro hfs
    simp [localImageStepB, hfs]
  · intro hfs
    simp [localImageStepB, hfs]

/-- Witness for C5 (amended) at a concrete existing local image in the
part_001 variant. -/
theorem local_image_reference_behavior_witness :
    localImageStepB (fun _ => true) "OEBPS" "pics/a.png"
      = { newSrc := jsNormalize "pics/a.png", pushed := some (jsNormalize "pics/a.png"),
          zipPath := some ("OEBPS" ++ "/" ++ jsNormalize "pics/a.png") } :=
  (local_image_reference_behavior (fun _ => Except.error "x") (fun _ => true)
    "OEBPS" "pics/a.png" "" (by decide)).2.2.1 rfl

/-- The `addedFiles`-guarded image loop emits each href at most once:
the number of items carrying href `h` is 0 when `h` is already in the set,
else 1 when `h` occurs in the list, else 0. -/
theorem countHref_imageItemsMd (h : String) : ∀ (fs added : List String) (i : Nat),
    countHref (imageItemsMd added i fs) h
      = if h ∈ added then 0 else if h ∈ fs then 1 else 0
  | [], added, i => by simp [imageItemsMd, countHref]
  | f :: fs, added, i => by
    by_cases hfa : f ∈ added
    · rw [imageItemsMd, if_pos hfa, countHref_imageItemsMd h fs added (i + 1)]
      by_cases hha : h ∈ added
      · simp [hha]
      · have hne : h ≠ f := fun he => hha (he ▸ hfa)
        simp [hha, List.mem_cons, hne]
    · rw [imageItemsMd, if_neg hfa]
      simp only [countHref]
      rw [countHref_imageItemsMd h fs (f :: added) (i + 1)]
      by_cases hhf : h = f
      · subst hhf
        simp [hfa, List.mem_cons]
      · have hfh : f ≠ h := fun he => hhf he.symm
        by_cases hha : h ∈ added
        · simp [hha, List.mem_cons, hhf, hfh]
        · simp [hha, List.mem_cons, hhf, hfh]

/-- First write wins: the one manifest item emitted for `h` carries the id
built from the index of the FIRST occurrence of `h` in the image list. -/
theorem imageItemsMd_first_write : ∀ (fs added : List String) (i : Nat) (h : String),
    h ∉ added → h ∈ fs →
    ({ id := "image" ++ toString (i + firstIdx h fs + 1), href := h,
       mediaType := getMediaType h, props := none } : ManifestItem) ∈ imageItemsMd added i fs
  | [], _, _, _, _, hmem => absurd hmem (by simp)
  | f :: fs, added, i, h, hna, hmem => by
    by_cases hhf : h = f
    · subst hhf
      rw [imageItemsMd, if_neg hna]
      simp only [firstIdx, if_pos rfl, Nat.add_zero]
      exact List.mem_cons_self _ _
    · have hmem' : h ∈ fs := by
        cases List.mem_cons.mp hmem with
        | inl hh => exact absurd hh hhf
        | inr hh => exact hh
      have fne : f ≠ h := fun he => hhf he.symm
      have harith : i + firstIdx h (f :: fs) + 1 = i + 1 + firstIdx h fs + 1 := by
        simp only [firstIdx, fne, if_false]
        omega
      by_cases hfa : f ∈ added
      · rw [imageItemsMd, if_pos hfa, harith]
        exact imageItemsMd_first_write fs added (i + 1) h hna hmem'
      · rw [imageItemsMd, if_neg hfa, harith]
        refine List.mem_cons_of_mem _ ?_
        refine imageItemsMd_first_write fs (f :: added) (i + 1) h ?_ hmem'
        simp [List.mem_cons, hna, hhf]

/-- The dedup-free image loop of the part_001 variant emits one item per
list element, so the href count equals the plain element count. -/
theorem countHref_imageItemsB : ∀ (fs : List String) (i : Nat) (h : String),
    countHref (imageItemsB i fs) h = countStr fs h
  | [], _, _ => rfl
  | f :: fs, i, h => by
    simp [imageItemsB, countHref, countStr, countHref_imageItemsB fs (i + 1) h]

/-- C6 (counterexample): in the `src/unnamed/part_001` variant, a chapter
whose rendered content carries the same remote URL twice (both downloads
succeeding to the same destination) yields TWO manifest items for that
image — there is no dedup set in that `generateContentOpf`. -/
theorem duplicate_image_manifest_cex :
    imageFilesB c6FetchOracle (fun _ => false) "OEBPS"
        ["http://h/a.png", "http://h/a.png"]
      = ["images/a.png", "images/a.png"]
    ∧ countHref (imageItemsB 0 (imageFilesB c6FetchOracle (fun _ => false) "OEBPS"
        ["http://h/a.png", "http://h/a.png"])) "images/a.png" = 2
    ∧ countHref (imageItemsB 0 (imageFilesB c6FetchOracle (fun _ => false) "OEBPS"
        ["http://h/a.png", "http://h/a.png"])) "images/a.png" ≠ 1 :=
  ⟨rfl, rfl, by decide⟩

/-- C6 (amended): in `src/mdToEpub.js` manifest registration of image
files IS deduplicated by href, first write wins (and `createEpub`
additionally dedups via a `Set` before calling the generator); in the
`src/unnamed/part_001` variant there is no dedup — each occurrence in
`imageFiles` produces its own manifest item. -/
theorem manifest_image_dedup_behavior (imageFiles added : List String) (i : Nat)
    (h : String) (hna : h ∉ added) (hmem : h ∈ imageFiles) :
    countHref (imageItemsMd added i imageFiles) h = 1
    ∧ ({ id := "image" ++ toString (i + firstIdx h imageFiles + 1), href := h,
         mediaType := getMediaType h, props := none } : ManifestItem)
        ∈ imageItemsMd added i imageFiles
    ∧ (∀ fs2 i2 h2, countHref (imageItemsB i2 fs2) h2 = countStr fs2 h2) := by
  refine ⟨?_, imageItemsMd_first_write imageFiles added i h hna hmem,
    fun fs2 i2 h2 => countHref_imageItemsB fs2 i2 h2⟩
  rw [countHref_imageItemsMd h imageFiles added i]
  simp [hna, hmem]

/-- Witness for C6 (amended): a duplicated href in the mdToEpub generator
still yields exactly one manifest item. -/
theorem manifest_image_dedup_behavior_witness :
    countHref (imageItemsMd [] 0 ["images/a.png", "images/a.png"]) "images/a.png" = 1 :=
  (manifest_image_dedup_behavior ["images/a.png", "images/a.png"] [] 0 "images/a.png"
    (by simp) (by simp)).1

/-- Any list is a Boolean prefix of itself followed by anything. -/
theorem listStartsWith_self_append : ∀ (a b : List Char), listStartsWith a (a ++ b) = true
  | [], _ => rfl
  | x :: a, b => by simp [listStartsWith, listStartsWith_self_append a b]

/-- The run scanner never loses the best seen so far. -/
theorem maxRunAux_ge : ∀ (l : List Char) (c : Char) (cur best : Nat),
    max cur best ≤ maxRunAux c l cur best
  | [], _, _, _ => le_refl _
  | x :: xs, c, cur, best => by
    rw [maxRunAux]
    by_cases hx : x = c
    · rw [if_pos hx]
      exact le_trans (max_le_max (Nat.le_succ cur) (le_refl best))
        (maxRunAux_ge xs c (cur + 1) best)
    · rw [if_neg hx]
      exact le_trans (le_max_right 0 (max cur best)) (maxRunAux_ge xs c 0 (max cur best))

/-- A run of `k` copies of `c` at the front of `l` extends the current run
in the scanner's result. -/
theorem maxRunAux_prefix : ∀ (l : List Char) (c : Char) (k cur best : Nat),
    listStartsWith (List.replicate k c) l = true → cur + k ≤ maxRunAux c l cur best
  | [], c, k, cur, best, h => by
    cases k with
    | zero => simpa using le_trans (Nat.le_max_left cur best) (maxRunAux_ge [] c cur best)
    | succ k => simp [List.replicate, listStartsWith] at h
  | x :: xs, c, k, cur, best, h => by
    cases k with
    | zero =>
      simpa using le_trans (Nat.le_max_left cur best) (maxRunAux_ge (x :: xs) c cur best)
    | succ k =>
      simp only [List.replicate, listStartsWith, Bool.and_eq_true, decide_eq_true_eq] at h
      obtain ⟨hcx, hrest⟩ := h
      rw [maxRunAux, if_pos hcx.symm]
      have hr := maxRunAux_prefix xs c k (cur + 1) best hrest
      omega

/-- Any embedded run of `k` copies of `c` bounds the scanner's result. -/
theorem maxRunAux_run_le : ∀ (s : List Char) (c : Char) (k : Nat) (t : List Char)
    (cur best : Nat), k ≤ maxRunAux c (s ++ List.replicate k c ++ t) cur best
  | [], c, k, t, cur, best => by
    have h := maxRunAux_prefix (List.replicate k c ++ t) c k cur best
      (listStartsWith_self_append (List.replicate k c) t)
    simpa using le_trans (Nat.le_add_left k cur) h
  | x :: s, c, k, t, cur, best => by
    simp only [List.cons_append]
    rw [maxRunAux]
    by_cases hx : x = c
    · rw [if_pos hx]
      exact maxRunAux_run_le s c k t (cur + 1) best
    · rw [if_neg hx]
      exact maxRunAux_run_le s c k t 0 (max cur best)

/-- C10 (counterexample): for the whitespace-only language string, the
output drops the language (it is normalized to the empty string), so the
output is not fence + language + newline + content + newline + fence as
the claim states for EVERY language string. -/
theorem whitespace_language_fence_cex :
    codeToMarkdown "x" " " = fenceOf 3 ++ "" ++ "\n" ++ "x" ++ "\n" ++ fenceOf 3
    ∧ codeToMarkdown "x" " " ≠ fenceOf 3 ++ " " ++ "\n" ++ "x" ++ "\n" ++ fenceOf 3 := by
  exact ⟨by decide, by decide⟩

/-- C10 (amended): `codeToMarkdown` returns exactly
fence ++ language' ++ newline ++ content ++ newline ++ fence, where
language' is language unless language is whitespace-only (then the empty
string), and the fence is `max 3 (longest backtick run + 1)` backticks —
so the fence is always at least 3 backticks and strictly longer than every
backtick run embedded in the content (the code can never terminate its own
fence early). -/
theorem code_fence_construction_amended (content language : String) :
    codeToMarkdown content language
      = fenceOf (max 3 (maxBacktickRun content + 1))
        ++ (if jsTrim language = "" then "" else language)
        ++ "\n" ++ content ++ "\n" ++ fenceOf (max 3 (maxBacktickRun content + 1))
    ∧ 3 ≤ max 3 (maxBacktickRun content + 1)
    ∧ (∀ (k : Nat) (s t : List Char),
        content.data = s ++ List.replicate k backtickChar ++ t
        → k < max 3 (maxBacktickRun content + 1)) := by
  refine ⟨rfl, Nat.le_max_left _ _, fun k s t hdecomp => ?_⟩
  have hk : k ≤ maxBacktickRun content := by
    rw [maxBacktickRun, hdecomp]
    exact maxRunAux_run_le s backtickChar k t 0 0
  have h2 : maxBacktickRun content < max 3 (maxBacktickRun content + 1) :=
    lt_of_lt_of_le (Nat.lt_succ_self _) (Nat.le_max_right _ _)
  omega

/-- Witness for C10 (amended): a content with a 2-backtick run stays
strictly below its fence length. -/
theorem code_fence_construction_amended_witness :
    2 < max 3 (maxBacktickRun "a``b" + 1) :=
  (code_fence_construction_amended "a``b" "js").2.2 2 "a".data "b".data (by decide)
